import Mathlib

/-!
Verification of the EcoMind tracker's core logic: the carbon calculator
(`utils/carbon_calculator.py`), the gamification engine
(`utils/gamification.py`), the app-level badge awarding path
(`check_and_award_badges` in `app.py`) and the ML predictor's fallback
path (`utils/ml_model.py`).  Emission values and scores are modelled as
rationals, calendar dates as integers (day ordinals, so a difference of
one means adjacent calendar days).
-/

namespace EcoMind

/-- One activity-log record as the badge engines consume it: its calendar
date (day ordinal) and the persisted `co2_grams` value. -/
structure Entry where
  date : Int
  co2_grams : Rat
deriving DecidableEq, Repr

/-- Insert an entry into a date-sorted list, keeping it sorted. -/
def insertByDate (e : Entry) : List Entry → List Entry
  | [] => [e]
  | f :: rest => if e.date ≤ f.date then e :: f :: rest else f :: insertByDate e rest

/-- Sort a log list ascending by date: models `df.sort_values('date')`
performed by both badge-awarding functions before any analysis. -/
def sortByDate : List Entry → List Entry
  | [] => []
  | e :: rest => insertByDate e (sortByDate rest)

/-- The `co2_grams` column of a log window. -/
def co2s (l : List Entry) : List Rat := l.map (·.co2_grams)

/-- pandas `.mean()` over a window (unused windows are never empty in the
code paths modelled here). -/
def mean (xs : List Rat) : Rat := xs.sum / xs.length

/-- pandas `.tail(n)`: the last `n` rows (all rows when fewer than `n`). -/
def tailN (l : List Entry) (n : Nat) : List Entry := l.drop (l.length - n)

/-- `df['co2_grams'].tail(7).mean()` over the date-sorted history. -/
def recent_emissions (logs : List Entry) : Rat :=
  mean (co2s (tailN (sortByDate logs) 7))

/-- `df['co2_grams'].head(7).mean()` over the date-sorted history. -/
def first_week_avg (logs : List Entry) : Rat :=
  mean (co2s ((sortByDate logs).take 7))

/-- `df['co2_grams'].tail(7).mean()` over the date-sorted history (the
source recomputes it for the Improvement Master rule). -/
def last_week_avg (logs : List Entry) : Rat :=
  mean (co2s (tailN (sortByDate logs) 7))

/-- Adjacent-difference check of `_check_consecutive_days`: every
consecutive pair of dates differs by exactly one day. -/
def adjacentDiffsOne : List Int → Bool
  | [] => true
  | [_] => true
  | a :: b :: rest => decide (b - a = 1) && adjacentDiffsOne (b :: rest)

/-- `GamificationSystem._check_consecutive_days(df, required_days)`:
`df` is already date-sorted; take the last `required_days` rows and
require every adjacent pair of dates to differ by exactly one day. -/
def check_consecutive_days (df : List Entry) (required_days : Nat) : Bool :=
  if df.length < required_days then false
  else adjacentDiffsOne ((tailN df required_days).map (·.date))

/-- One badge-award step shared by both awarding functions: if the badge
is not yet held and its condition holds, append it to the held set and to
the newly-earned list; otherwise leave the state unchanged.  This is the
`if badge not in earned and cond: earned.append(badge); newly.append(badge)`
pattern of `check_badges`, and equally the app path where
`db.award_badge` inserts only when absent and reports whether it did. -/
def runAwards : List (String × Bool) → List String → List String × List String
  | [], earned => ([], earned)
  | (n, c) :: rest, earned =>
    if n ∈ earned then runAwards rest earned
    else if c then
      let p := runAwards rest (earned ++ [n])
      (n :: p.1, p.2)
    else runAwards rest earned

/-- The badge rules of `GamificationSystem.check_badges`, in source
order, each paired with its condition evaluated on the history.  The
conditions read only the history (never the mutable badge set), exactly
as in the source. -/
def badgeRules (user_logs : List Entry) : List (String × Bool) :=
  [("First Steps", decide (1 ≤ user_logs.length)),
   ("Week Warrior", decide (7 ≤ user_logs.length) &&
      check_consecutive_days (sortByDate user_logs) 7),
   ("Consistency King", decide (30 ≤ user_logs.length) &&
      check_consecutive_days (sortByDate user_logs) 30),
   ("Eco Novice", decide (recent_emissions user_logs < 2000)),
   ("Green Guardian", decide (recent_emissions user_logs < 1500)),
   ("Carbon Crusher", decide (recent_emissions user_logs < 1000)),
   ("Eco Champion", decide (recent_emissions user_logs < 500)),
   ("Improvement Master", decide (14 ≤ user_logs.length) &&
      (decide (0 < first_week_avg user_logs) &&
       decide ((1 : Rat)/2 ≤
         (first_week_avg user_logs - last_week_avg user_logs) / first_week_avg user_logs)))]

/-- `GamificationSystem.check_badges(user_logs)` with the held badge set
made explicit: returns the newly-earned list and the held set after the
call (`self.earned_badges`).  Empty history returns immediately. -/
def check_badges (user_logs : List Entry) (earned_badges : List String) :
    List String × List String :=
  if user_logs.isEmpty then ([], earned_badges)
  else runAwards (badgeRules user_logs) earned_badges

/-- The badge rules of the app-level `check_and_award_badges` in
`app.py`, in source order.  Week Warrior and Consistency King check only
the history length (no consecutiveness), and the four emission badges
are gated behind `len(logs) >= 3`. -/
def appBadgeRules (logs : List Entry) : List (String × Bool) :=
  [("First Steps", decide (1 ≤ logs.length)),
   ("Week Warrior", decide (7 ≤ logs.length)),
   ("Consistency King", decide (30 ≤ logs.length)),
   ("Eco Novice", decide (3 ≤ logs.length) && decide (recent_emissions logs < 2000)),
   ("Green Guardian", decide (3 ≤ logs.length) && decide (recent_emissions logs < 1500)),
   ("Carbon Crusher", decide (3 ≤ logs.length) && decide (recent_emissions logs < 1000)),
   ("Eco Champion", decide (3 ≤ logs.length) && decide (recent_emissions logs < 500)),
   ("Improvement Master", decide (14 ≤ logs.length) &&
      (decide (0 < first_week_avg logs) &&
       decide ((1 : Rat)/2 ≤
         (first_week_avg logs - last_week_avg logs) / first_week_avg logs)))]

/-- `check_and_award_badges(user_id)` from `app.py`, with the stored
history and the user's current badge rows made explicit: returns the
newly-earned list and the badge rows after the call.  `db.award_badge`
inserts only when the badge is absent and returns whether it inserted. -/
def check_and_award_badges (logs : List Entry) (current_badges : List String) :
    List String × List String :=
  if logs.isEmpty then ([], current_badges)
  else runAwards (appBadgeRules logs) current_badges

/-- One level band of `GamificationSystem.levels`: name, inclusive score
range (`none` upper bound models `float('inf')`) and display color. -/
structure LevelBand where
  name : String
  min_score : Rat
  max_score : Option Rat
  color : String
deriving DecidableEq, Repr

/-- The `self.levels` table, in insertion (iteration) order. -/
def levels : List LevelBand :=
  [⟨"Bronze", 0, some 100, "#CD7F32"⟩,
   ⟨"Silver", 101, some 250, "#C0C0C0"⟩,
   ⟨"Gold", 251, some 500, "#FFD700"⟩,
   ⟨"Platinum", 501, some 1000, "#E5E4E2"⟩,
   ⟨"Diamond", 1001, none, "#B9F2FF"⟩]

/-- `level_info['min_score'] <= score <= level_info['max_score']`; a
comparison against `float('inf')` is always true. -/
def level_matches (b : LevelBand) (score : Rat) : Bool :=
  decide (b.min_score ≤ score) &&
    (match b.max_score with
     | some m => decide (score ≤ m)
     | none => true)

/-- `GamificationSystem.get_current_level`: return the first level whose
range contains the score, falling through to `'Diamond'`. -/
def get_current_level (user_score : Rat) : String :=
  match levels.find? (fun b => level_matches b user_score) with
  | some b => b.name
  | none => "Diamond"

/-- `GamificationSystem.calculate_daily_score`: step function from daily
CO2 grams to points; `global_avg = 2500`. -/
def calculate_daily_score (daily_co2 : Rat) : Int :=
  let global_avg : Rat := 2500
  if daily_co2 ≤ 500 then 20
  else if daily_co2 ≤ 1000 then 15
  else if daily_co2 ≤ 1500 then 10
  else if daily_co2 ≤ 2000 then 5
  else if daily_co2 ≤ global_avg then 2
  else 1

/-- `CarbonCalculator.emission_factors`: grams per unit of activity. -/
def emission_factors : String → Rat
  | "email" => 4
  | "video_call" => 150
  | "streaming" => 36
  | "cloud_storage" => 10
  | "device_usage" => 20
  | _ => 0

/-- Round to the nearest integer, ties to even, as Python's `round` does
on exactly representable values. -/
def roundHalfEven (q : Rat) : Int :=
  if q - ⌊q⌋ < 1/2 then ⌊q⌋
  else if 1/2 < q - ⌊q⌋ then ⌊q⌋ + 1
  else if 2 ∣ ⌊q⌋ then ⌊q⌋ else ⌊q⌋ + 1

/-- Python's `round(x, 2)`: round to two decimal digits. -/
def round2 (q : Rat) : Rat := (roundHalfEven (q * 100) : Rat) / 100

/-- `CarbonCalculator.calculate_daily_footprint`: weighted sum of the
five activities, rounded to two decimals. -/
def calculate_daily_footprint (emails video_calls_hours streaming_hours
    cloud_storage_gb device_hours : Rat) : Rat :=
  let email_co2 := emails * emission_factors "email"
  let video_co2 := video_calls_hours * emission_factors "video_call"
  let streaming_co2 := streaming_hours * emission_factors "streaming"
  let storage_co2 := cloud_storage_gb * emission_factors "cloud_storage"
  let device_co2 := device_hours * emission_factors "device_usage"
  let total_co2 := email_co2 + video_co2 + streaming_co2 + storage_co2 + device_co2
  round2 total_co2

/-- `CarbonPredictor.predict_emissions`: `is_trained` and the optional
trained model are explicit; the model itself is an opaque function from
the five activity features to a predicted daily value.  When untrained
or without a model it falls back to the deterministic linear sum scaled
by `days`; otherwise it returns the clamped model prediction. -/
def predict_emissions (is_trained : Bool)
    (model : Option (Rat × Rat × Rat × Rat × Rat → Rat))
    (emails video_calls streaming cloud_storage device_usage days : Rat) : Rat :=
  if !is_trained || model.isNone then
    (emails * 4 + video_calls * 150 + streaming * 36 +
      cloud_storage * 10 + device_usage * 20) * days
  else
    max 0 ((model.getD (fun _ => 0))
      (emails, video_calls, streaming, cloud_storage, device_usage) * days)

/-- Seven entries on consecutive dates, all at 2600 g. -/
def consHist7 : List Entry :=
  [⟨0, 2600⟩, ⟨1, 2600⟩, ⟨2, 2600⟩, ⟨3, 2600⟩, ⟨4, 2600⟩, ⟨5, 2600⟩, ⟨6, 2600⟩]

/-- Seven entries with one skipped date (gap of 2 days between the 5th
and 6th), all at 2600 g. -/
def gapHist7 : List Entry :=
  [⟨0, 2600⟩, ⟨1, 2600⟩, ⟨2, 2600⟩, ⟨3, 2600⟩, ⟨4, 2600⟩, ⟨6, 2600⟩, ⟨7, 2600⟩]

/-- A two-entry history with very low emissions. -/
def lowTwo : List Entry := [⟨0, 100⟩, ⟨1, 100⟩]

/-- A three-entry history with very low emissions. -/
def lowThree : List Entry := [⟨0, 100⟩, ⟨1, 100⟩, ⟨2, 100⟩]

/-- Fourteen consecutive entries: first week at 2000 g, last week at
900 g (a 55 percent reduction). -/
def improveHist : List Entry :=
  [⟨0, 2000⟩, ⟨1, 2000⟩, ⟨2, 2000⟩, ⟨3, 2000⟩, ⟨4, 2000⟩, ⟨5, 2000⟩, ⟨6, 2000⟩,
   ⟨7, 900⟩, ⟨8, 900⟩, ⟨9, 900⟩, ⟨10, 900⟩, ⟨11, 900⟩, ⟨12, 900⟩, ⟨13, 900⟩]

/-- A single-entry history. -/
def oneEntry : List Entry := [⟨0, 1234⟩]

/-! Generic facts about the badge-award loop. -/

/-- The held set after a run is the held set before followed by the
newly-earned badges, in award order. -/
theorem runAwards_snd (rules : List (String × Bool)) (earned : List String) :
    (runAwards rules earned).2 = earned ++ (runAwards rules earned).1 := by
  induction rules generalizing earned with
  | nil => simp [runAwards]
  | cons r rest ih =>
    obtain ⟨n, c⟩ := r
    simp only [runAwards]
    by_cases h1 : n ∈ earned
    · simpa [h1] using ih earned
    · by_cases h2 : c = true
      · simp only [h1, h2, if_true, if_false, ite_false, ite_true]
        rw [ih (earned ++ [n])]
        simp
      · simpa [h1, h2] using ih earned

/-- A badge already held is never in the newly-earned list. -/
theorem runAwards_not_reemit (rules : List (String × Bool)) (earned : List String)
    (b : String) (hb : b ∈ earned) : b ∉ (runAwards rules earned).1 := by
  induction rules generalizing earned with
  | nil => simp [runAwards]
  | cons r rest ih =>
    obtain ⟨n, c⟩ := r
    simp only [runAwards]
    by_cases h1 : n ∈ earned
    · simpa [h1] using ih earned hb
    · by_cases h2 : c = true
      · simp only [h1, h2, ite_false, ite_true, if_false, if_true]
        have hbn : b ≠ n := fun h => h1 (h ▸ hb)
        have := ih (earned ++ [n]) (by simp [hb])
        simp [hbn, this]
      · simpa [h1, h2] using ih earned hb

/-- Soundness of an award: a newly-earned badge was not held before and
its rule's condition evaluated to true. -/
theorem runAwards_mem_fst (rules : List (String × Bool)) (earned : List String)
    (b : String) (h : b ∈ (runAwards rules earned).1) :
    b ∉ earned ∧ (b, true) ∈ rules := by
  induction rules generalizing earned with
  | nil => simp [runAwards] at h
  | cons r rest ih =>
    obtain ⟨n, c⟩ := r
    simp only [runAwards] at h
    by_cases h1 : n ∈ earned
    · rw [if_pos h1] at h
      obtain ⟨hne, hr⟩ := ih earned h
      exact ⟨hne, List.mem_cons_of_mem _ hr⟩
    · by_cases h2 : c = true
      · rw [if_neg h1, if_pos h2] at h
        rcases List.mem_cons.mp h with rfl | h
        · exact ⟨h1, by simp [h2]⟩
        · obtain ⟨hne, hr⟩ := ih (earned ++ [n]) h
          refine ⟨fun hmem => hne (by simp [hmem]), List.mem_cons_of_mem _ hr⟩
      · rw [if_neg h1, if_neg h2] at h
        obtain ⟨hne, hr⟩ := ih earned h
        exact ⟨hne, List.mem_cons_of_mem _ hr⟩

/-- Completeness of an award, given pairwise-distinct rule names: a badge
not yet held whose condition is true ends up newly earned. -/
theorem runAwards_mem_fst_of (rules : List (String × Bool)) (earned : List String)
    (b : String) (hnd : (rules.map Prod.fst).Nodup)
    (hne : b ∉ earned) (hr : (b, true) ∈ rules) :
    b ∈ (runAwards rules earned).1 := by
  induction rules generalizing earned with
  | nil => simp at hr
  | cons r rest ih =>
    obtain ⟨n, c⟩ := r
    simp only [List.map_cons, List.nodup_cons] at hnd
    obtain ⟨hn_rest, hnd_rest⟩ := hnd
    simp only [runAwards]
    rcases List.mem_cons.mp hr with heq | hr_rest
    · obtain ⟨rfl, rfl⟩ := Prod.mk.injEq .. ▸ heq
      injection heq with hb hc
      rw [if_neg hne, if_pos rfl]
      exact List.mem_cons_self _ _
    · have hbn : b ≠ n := by
        intro h
        exact hn_rest (h ▸ (List.mem_map.mpr ⟨(b, true), hr_rest, rfl⟩))
      by_cases h1 : n ∈ earned
      · rw [if_pos h1]
        exact ih earned hnd_rest hne hr_rest
      · by_cases h2 : c = true
        · rw [if_neg h1, if_pos h2]
          have : b ∈ (runAwards rest (earned ++ [n])).1 :=
            ih (earned ++ [n]) hnd_rest (by simp [hne, hbn]) hr_rest
          exact List.mem_cons_of_mem _ this
        · rw [if_neg h1, if_neg h2]
          exact ih earned hnd_rest hne hr_rest

/-- Idempotence of the award loop: re-running the same rules starting
from the held set produced by a first run awards nothing. -/
theorem runAwards_idem (rules : List (String × Bool)) (earned : List String) :
    (runAwards rules (earned ++ (runAwards rules earned).1)).1 = [] := by
  induction rules generalizing earned with
  | nil => simp [runAwards]
  | cons r rest ih =>
    obtain ⟨n, c⟩ := r
    by_cases h1 : n ∈ earned
    · have e1 : runAwards ((n, c) :: rest) earned = runAwards rest earned := by
        simp [runAwards, h1]
      rw [e1]
      have hmem : n ∈ earned ++ (runAwards rest earned).1 := by simp [h1]
      have e2 : runAwards ((n, c) :: rest) (earned ++ (runAwards rest earned).1) =
          runAwards rest (earned ++ (runAwards rest earned).1) := by
        simp [runAwards, hmem]
      rw [e2]
      exact ih earned
    · by_cases h2 : c = true
      · have e1 : (runAwards ((n, c) :: rest) earned).1 =
            n :: (runAwards rest (earned ++ [n])).1 := by
          simp [runAwards, h1, h2]
        rw [e1]
        have hmem : n ∈ earned ++ n :: (runAwards rest (earned ++ [n])).1 := by simp
        have e2 : runAwards ((n, c) :: rest)
              (earned ++ n :: (runAwards rest (earned ++ [n])).1) =
            runAwards rest (earned ++ n :: (runAwards rest (earned ++ [n])).1) := by
          simp [runAwards, hmem]
        rw [e2]
        have e3 : earned ++ n :: (runAwards rest (earned ++ [n])).1 =
            (earned ++ [n]) ++ (runAwards rest (earned ++ [n])).1 := by simp
        rw [e3]
        exact ih (earned ++ [n])
      · have e1 : runAwards ((n, c) :: rest) earned = runAwards rest earned := by
          simp [runAwards, h1, h2]
        rw [e1]
        by_cases hmem : n ∈ earned ++ (runAwards rest earned).1
        · have e2 : runAwards ((n, c) :: rest) (earned ++ (runAwards rest earned).1) =
              runAwards rest (earned ++ (runAwards rest earned).1) := by
            simp [runAwards, hmem]
          rw [e2]
          exact ih earned
        · have e2 : runAwards ((n, c) :: rest) (earned ++ (runAwards rest earned).1) =
              runAwards rest (earned ++ (runAwards rest earned).1) := by
            simp [runAwards, hmem, h2]
          rw [e2]
          exact ih earned

/-- Membership in the newly-earned list, characterised (rule names must
be pairwise distinct, which both rule tables satisfy). -/
theorem runAwards_mem_iff (rules : List (String × Bool)) (earned : List String)
    (b : String) (hnd : (rules.map Prod.fst).Nodup) :
    b ∈ (runAwards rules earned).1 ↔ b ∉ earned ∧ (b, true) ∈ rules :=
  ⟨runAwards_mem_fst rules earned b,
   fun h => runAwards_mem_fst_of rules earned b hnd h.1 h.2⟩

/-- The rule names of `check_badges`, in order. -/
theorem badgeRules_names (logs : List Entry) :
    (badgeRules logs).map Prod.fst =
      ["First Steps", "Week Warrior", "Consistency King", "Eco Novice",
       "Green Guardian", "Carbon Crusher", "Eco Champion", "Improvement Master"] := rfl

/-- The rule names of `check_and_award_badges`, in order. -/
theorem appBadgeRules_names (logs : List Entry) :
    (appBadgeRules logs).map Prod.fst =
      ["First Steps", "Week Warrior", "Consistency King", "Eco Novice",
       "Green Guardian", "Carbon Crusher", "Eco Champion", "Improvement Master"] := rfl

/-- The rule names of `check_badges` are pairwise distinct. -/
theorem badgeRules_nodup (logs : List Entry) :
    ((badgeRules logs).map Prod.fst).Nodup := by
  rw [badgeRules_names]; decide

/-- The rule names of `check_and_award_badges` are pairwise distinct. -/
theorem appBadgeRules_nodup (logs : List Entry) :
    ((appBadgeRules logs).map Prod.fst).Nodup := by
  rw [appBadgeRules_names]; decide

/-- Membership in `check_badges`'s newly-earned list for a non-empty
history. -/
theorem mem_check_badges_iff (logs : List Entry) (earned : List String)
    (b : String) (hne : logs ≠ []) :
    b ∈ (check_badges logs earned).1 ↔ b ∉ earned ∧ (b, true) ∈ badgeRules logs := by
  unfold check_badges
  rw [if_neg (by simp [hne])]
  exact runAwards_mem_iff _ _ _ (badgeRules_nodup logs)

/-- Membership in `check_and_award_badges`'s newly-earned list for a
non-empty history. -/
theorem mem_check_and_award_iff (logs : List Entry) (cur : List String)
    (b : String) (hne : logs ≠ []) :
    b ∈ (check_and_award_badges logs cur).1 ↔
      b ∉ cur ∧ (b, true) ∈ appBadgeRules logs := by
  unfold check_and_award_badges
  rw [if_neg (by simp [hne])]
  exact runAwards_mem_iff _ _ _ (appBadgeRules_nodup logs)

/-- The held set after `check_badges` is the held set before followed by
the newly-earned badges. -/
theorem check_badges_snd (logs : List Entry) (earned : List String) :
    (check_badges logs earned).2 = earned ++ (check_badges logs earned).1 := by
  unfold check_badges
  split
  · simp
  · exact runAwards_snd _ _

/-- The badge rows after `check_and_award_badges` are the rows before
followed by the newly-earned badges. -/
theorem check_and_award_snd (logs : List Entry) (cur : List String) :
    (check_and_award_badges logs cur).2 = cur ++ (check_and_award_badges logs cur).1 := by
  unfold check_and_award_badges
  split
  · simp
  · exact runAwards_snd _ _

/-! The claims. -/

/-- C8: for an empty history, both badge-awarding paths raise no error,
return an empty newly-awarded list and leave the held badge set
unchanged. -/
theorem C8_empty_history_noop (earned : List String) :
    check_badges [] earned = ([], earned) ∧
    check_and_award_badges [] earned = ([], earned) :=
  ⟨rfl, rfl⟩

/-- C9: whenever the predictor is untrained or its model is unavailable,
`predict_emissions` returns exactly the deterministic emission-model
value 4e + 150v + 36s + 10c + 20d multiplied by the requested days. -/
theorem C9_predict_fallback (is_trained : Bool)
    (model : Option (Rat × Rat × Rat × Rat × Rat → Rat))
    (emails video_calls streaming cloud_storage device_usage days : Rat)
    (h : is_trained = false ∨ model = none) :
    predict_emissions is_trained model emails video_calls streaming
        cloud_storage device_usage days =
      (4 * emails + 150 * video_calls + 36 * streaming +
        10 * cloud_storage + 20 * device_usage) * days := by
  rcases h with rfl | rfl
  · simp only [predict_emissions, Bool.not_false, Bool.true_or, if_true]
    ring
  · simp only [predict_emissions, Option.isNone_none, Bool.or_true, if_true]
    ring

/-- C9 witness: the untrained predictor at the sample activity levels
over two days. -/
theorem C9_predict_fallback_witness :
    predict_emissions false none 20 2 3 5 8 2 =
      (4 * 20 + 150 * 2 + 36 * 3 + 10 * 5 + 20 * 8) * 2 :=
  C9_predict_fallback false none 20 2 3 5 8 2 (Or.inl rfl)

/-- C5: the daily score is the inclusive-threshold step function, first
match wins (≤500 → 20, ≤1000 → 15, ≤1500 → 10, ≤2000 → 5, ≤2500 → 2,
above 2500 → 1), and it is always at least 1, never 0. -/
theorem C5_daily_score_step (c : Rat) (h : 0 ≤ c) :
    ((c ≤ 500 → calculate_daily_score c = 20) ∧
     (500 < c → c ≤ 1000 → calculate_daily_score c = 15) ∧
     (1000 < c → c ≤ 1500 → calculate_daily_score c = 10) ∧
     (1500 < c → c ≤ 2000 → calculate_daily_score c = 5) ∧
     (2000 < c → c ≤ 2500 → calculate_daily_score c = 2) ∧
     (2500 < c → calculate_daily_score c = 1)) ∧
    1 ≤ calculate_daily_score c ∧ calculate_daily_score c ≠ 0 := by
  simp only [calculate_daily_score]
  split_ifs with h1 h2 h3 h4 h5 <;>
    refine ⟨⟨fun ha => ?_, fun ha hb => ?_, fun ha hb => ?_, fun ha hb => ?_,
      fun ha hb => ?_, fun ha => ?_⟩, ?_, ?_⟩ <;>
    first
      | rfl
      | linarith
      | norm_num

/-- C5 witness: 698 grams falls in the ≤1000 bucket, scoring 15. -/
theorem C5_daily_score_step_witness :
    calculate_daily_score 698 = 15 ∧ 1 ≤ calculate_daily_score 698 :=
  ⟨(C5_daily_score_step 698 (by norm_num)).1.2.1 (by norm_num) (by norm_num),
   (C5_daily_score_step 698 (by norm_num)).2.1⟩

/-- C3: badge evaluation is idempotent and badge sets are monotonic, for
both the gamification engine's `check_badges` and the app-level
`check_and_award_badges`: a second run on the unchanged history and the
resulting badge set awards nothing, an already-held badge is never
re-emitted, and the held set after evaluation contains the set before. -/
theorem C3_idempotent_monotonic (logs : List Entry) (earned : List String) :
    ((check_badges logs (check_badges logs earned).2).1 = [] ∧
     (∀ b ∈ earned, b ∉ (check_badges logs earned).1) ∧
     (∀ b ∈ earned, b ∈ (check_badges logs earned).2)) ∧
    ((check_and_award_badges logs (check_and_award_badges logs earned).2).1 = [] ∧
     (∀ b ∈ earned, b ∉ (check_and_award_badges logs earned).1) ∧
     (∀ b ∈ earned, b ∈ (check_and_award_badges logs earned).2)) := by
  by_cases he : logs.isEmpty
  · have h1 : check_badges logs earned = ([], earned) := by
      unfold check_badges; rw [if_pos he]
    have h2 : check_and_award_badges logs earned = ([], earned) := by
      unfold check_and_award_badges; rw [if_pos he]
    refine ⟨⟨?_, ?_, ?_⟩, ?_, ?_, ?_⟩ <;> simp [h1, h2]
  · have h1 : ∀ es, check_badges logs es = runAwards (badgeRules logs) es := by
      intro es; unfold check_badges; rw [if_neg he]
    have h2 : ∀ es, check_and_award_badges logs es = runAwards (appBadgeRules logs) es := by
      intro es; unfold check_and_award_badges; rw [if_neg he]
    refine ⟨⟨?_, ?_, ?_⟩, ?_, ?_, ?_⟩
    · simp only [h1]
      rw [runAwards_snd]
      exact runAwards_idem _ _
    · intro b hb
      rw [h1]
      exact runAwards_not_reemit _ _ _ hb
    · intro b hb
      rw [h1, runAwards_snd]
      exact List.mem_append_left _ hb
    · simp only [h2]
      rw [runAwards_snd]
      exact runAwards_idem _ _
    · intro b hb
      rw [h2]
      exact runAwards_not_reemit _ _ _ hb
    · intro b hb
      rw [h2, runAwards_snd]
      exact List.mem_append_left _ hb

/-- C3 witness: a held badge is not re-emitted and the second run awards
nothing, at a one-entry history. -/
theorem C3_idempotent_monotonic_witness :
    (check_badges oneEntry (check_badges oneEntry ["Eco Champion"]).2).1 = [] ∧
    "Eco Champion" ∉ (check_badges oneEntry ["Eco Champion"]).1 :=
  ⟨(C3_idempotent_monotonic oneEntry ["Eco Champion"]).1.1,
   (C3_idempotent_monotonic oneEntry ["Eco Champion"]).1.2.1 "Eco Champion" (by simp)⟩

/-- C2: in the app's badge-awarding path, the four emission-threshold
badges are evaluated only when the history has at least 3 entries (a
history of length 1 or 2 awards none of them, whatever its emissions),
and with at least 3 entries each is awarded exactly when it is not yet
held and the mean `co2_grams` of the most recent 7 entries is strictly
below its threshold. -/
theorem C2_emission_threshold_gate (logs : List Entry) (cur : List String) :
    ((logs.length = 1 ∨ logs.length = 2) →
      ("Eco Novice" ∉ (check_and_award_badges logs cur).1 ∧
       "Green Guardian" ∉ (check_and_award_badges logs cur).1 ∧
       "Carbon Crusher" ∉ (check_and_award_badges logs cur).1 ∧
       "Eco Champion" ∉ (check_and_award_badges logs cur).1)) ∧
    (3 ≤ logs.length →
      (("Eco Novice" ∈ (check_and_award_badges logs cur).1 ↔
          "Eco Novice" ∉ cur ∧ recent_emissions logs < 2000) ∧
       ("Green Guardian" ∈ (check_and_award_badges logs cur).1 ↔
          "Green Guardian" ∉ cur ∧ recent_emissions logs < 1500) ∧
       ("Carbon Crusher" ∈ (check_and_award_badges logs cur).1 ↔
          "Carbon Crusher" ∉ cur ∧ recent_emissions logs < 1000) ∧
       ("Eco Champion" ∈ (check_and_award_badges logs cur).1 ↔
          "Eco Champion" ∉ cur ∧ recent_emissions logs < 500))) := by
  constructor
  · intro hlen
    have hne : logs ≠ [] := by
      intro hnil
      rw [hnil] at hlen
      simp at hlen
    have h3 : ¬ (3 ≤ logs.length) := by omega
    have key : ∀ b : String, b ∈ (check_and_award_badges logs cur).1 →
        (b, true) ∈ appBadgeRules logs :=
      fun b hb => ((mem_check_and_award_iff logs cur b hne).mp hb).2
    refine ⟨fun hb => ?_, fun hb => ?_, fun hb => ?_, fun hb => ?_⟩ <;>
      · have hr := key _ hb
        simp [appBadgeRules, h3] at hr
  · intro h3
    have hne : logs ≠ [] := by
      intro hnil
      rw [hnil] at h3
      simp at h3
    have hd3 : decide (3 ≤ logs.length) = true := decide_eq_true h3
    have hEN : (("Eco Novice", true) ∈ appBadgeRules logs) ↔
        recent_emissions logs < 2000 := by
      simp [appBadgeRules, hd3]
    have hGG : (("Green Guardian", true) ∈ appBadgeRules logs) ↔
        recent_emissions logs < 1500 := by
      simp [appBadgeRules, hd3]
    have hCC : (("Carbon Crusher", true) ∈ appBadgeRules logs) ↔
        recent_emissions logs < 1000 := by
      simp [appBadgeRules, hd3]
    have hEC : (("Eco Champion", true) ∈ appBadgeRules logs) ↔
        recent_emissions logs < 500 := by
      simp [appBadgeRules, hd3]
    exact ⟨(mem_check_and_award_iff logs cur _ hne).trans
        (and_congr_right fun _ => hEN),
      (mem_check_and_award_iff logs cur _ hne).trans
        (and_congr_right fun _ => hGG),
      (mem_check_and_award_iff logs cur _ hne).trans
        (and_congr_right fun _ => hCC),
      (mem_check_and_award_iff logs cur _ hne).trans
        (and_congr_right fun _ => hEC)⟩

/-- C2 witness: a two-entry history at 100 g awards no emission badge,
while a three-entry history at 100 g awards Eco Novice. -/
theorem C2_emission_threshold_gate_witness :
    "Eco Novice" ∉ (check_and_award_badges lowTwo []).1 ∧
    "Eco Novice" ∈ (check_and_award_badges lowThree []).1 :=
  ⟨((C2_emission_threshold_gate lowTwo []).1 (Or.inr rfl)).1,
   ((C2_emission_threshold_gate lowThree []).2 (by norm_num [lowThree])).1.mpr
     ⟨by simp, by norm_num [recent_emissions, mean, co2s, tailN, sortByDate,
        insertByDate, lowThree]⟩⟩

/-- C4: in both badge-awarding paths, the Improvement Master badge is
awarded exactly when it is not yet held, the history has at least 14
entries, the mean of the chronologically first 7 entries is strictly
positive, and the relative reduction from first-week mean to last-week
mean is at least one half; a zero first-week mean never awards it (and
the total rational division makes a zero denominator harmless). -/
theorem C4_improvement_master (logs : List Entry) (cur : List String) :
    (("Improvement Master" ∈ (check_and_award_badges logs cur).1 ↔
       "Improvement Master" ∉ cur ∧ 14 ≤ logs.length ∧
         0 < first_week_avg logs ∧
         (1 : Rat)/2 ≤ (first_week_avg logs - last_week_avg logs) / first_week_avg logs) ∧
     ("Improvement Master" ∈ (check_badges logs cur).1 ↔
       "Improvement Master" ∉ cur ∧ 14 ≤ logs.length ∧
         0 < first_week_avg logs ∧
         (1 : Rat)/2 ≤ (first_week_avg logs - last_week_avg logs) / first_week_avg logs)) ∧
    (first_week_avg logs = 0 →
      "Improvement Master" ∉ (check_and_award_badges logs cur).1 ∧
      "Improvement Master" ∉ (check_badges logs cur).1) := by
  by_cases hnil : logs = []
  · subst hnil
    refine ⟨⟨?_, ?_⟩, ?_⟩ <;> simp [check_and_award_badges, check_badges]
  · have hApp : ("Improvement Master", true) ∈ appBadgeRules logs ↔
        14 ≤ logs.length ∧ 0 < first_week_avg logs ∧
          (1 : Rat)/2 ≤ (first_week_avg logs - last_week_avg logs) / first_week_avg logs := by
      simp [appBadgeRules, and_assoc]
    have hGam : ("Improvement Master", true) ∈ badgeRules logs ↔
        14 ≤ logs.length ∧ 0 < first_week_avg logs ∧
          (1 : Rat)/2 ≤ (first_week_avg logs - last_week_avg logs) / first_week_avg logs := by
      simp [badgeRules, and_assoc]
    have h1 := (mem_check_and_award_iff logs cur "Improvement Master" hnil).trans
      (and_congr_right fun _ => hApp)
    have h2 := (mem_check_badges_iff logs cur "Improvement Master" hnil).trans
      (and_congr_right fun _ => hGam)
    refine ⟨⟨h1, h2⟩, fun hz => ⟨fun hb => ?_, fun hb => ?_⟩⟩
    · have := (h1.mp hb).2.2.1
      rw [hz] at this
      exact lt_irrefl 0 this
    · have := (h2.mp hb).2.2.1
      rw [hz] at this
      exact lt_irrefl 0 this

/-- C4 witness: 14 consecutive entries with first-week mean 2000 and
last-week mean 900 (a 55 percent reduction) award Improvement Master. -/
theorem C4_improvement_master_witness :
    "Improvement Master" ∈ (check_and_award_badges improveHist []).1 :=
  ((C4_improvement_master improveHist []).1.1).mpr
    ⟨by simp, by norm_num [improveHist],
     by norm_num [first_week_avg, mean, co2s, sortByDate, insertByDate, improveHist],
     by norm_num [first_week_avg, last_week_avg, mean, co2s, tailN,
        sortByDate, insertByDate, improveHist]⟩

/-- C1: the Week Warrior divergence.  On seven consecutive dates
`check_badges` awards the badge; on seven entries with a skipped date
(gap of two days) `check_badges` — which implements the badge's
documented consecutive-days requirement — does not award it, but the
app-level `check_and_award_badges` still does, because it checks only
`len(logs) >= 7` and never the dates. -/
theorem C1_week_warrior_divergence :
    (check_badges consHist7 []).1 = ["First Steps", "Week Warrior"] ∧
    (check_badges gapHist7 []).1 = ["First Steps"] ∧
    (check_and_award_badges gapHist7 []).1 = ["First Steps", "Week Warrior"] := by
  refine ⟨?_, ?_, ?_⟩
  · norm_num [check_badges, badgeRules, runAwards, recent_emissions, first_week_avg,
      last_week_avg, mean, co2s, tailN, sortByDate, insertByDate,
      check_consecutive_days, adjacentDiffsOne, consHist7]
    decide
  · norm_num [check_badges, badgeRules, runAwards, recent_emissions, first_week_avg,
      last_week_avg, mean, co2s, tailN, sortByDate, insertByDate,
      check_consecutive_days, adjacentDiffsOne, gapHist7]
  · norm_num [check_and_award_badges, appBadgeRules, runAwards, recent_emissions,
      first_week_avg, last_week_avg, mean, co2s, tailN, sortByDate, insertByDate,
      gapHist7]
    decide

/-- A bounded level band contains a score exactly when the score lies in
its inclusive range. -/
theorem level_matches_some_iff (name : String) (lo hi : Rat) (color : String) (q : Rat) :
    level_matches ⟨name, lo, some hi, color⟩ q = true ↔ lo ≤ q ∧ q ≤ hi := by
  simp [level_matches]

/-- The unbounded top band contains a score exactly when the score is at
least its lower bound. -/
theorem level_matches_none_iff (name : String) (lo : Rat) (color : String) (q : Rat) :
    level_matches ⟨name, lo, none, color⟩ q = true ↔ lo ≤ q := by
  simp [level_matches]

/-- C10: a score contained in no level band — any negative score, or a
fractional score strictly between two bands — makes `get_current_level`
fall through to `'Diamond'`, not `'Bronze'`. -/
theorem C10_no_band_falls_to_diamond (q : Rat)
    (h : ∀ b ∈ levels, level_matches b q = false) :
    get_current_level q = "Diamond" := by
  have hf : List.find? (fun b => level_matches b q) levels = none :=
    List.find?_eq_none.mpr fun b hb => by simp [h b hb]
  simp [get_current_level, hf]

/-- C10 witness: the fallback at −1 (negative) and at 100.5 (strictly
between Bronze's maximum and Silver's minimum). -/
theorem C10_no_band_falls_to_diamond_witness :
    get_current_level (-1) = "Diamond" ∧ get_current_level (201/2) = "Diamond" :=
  ⟨C10_no_band_falls_to_diamond (-1) (by
      intro b hb
      simp only [levels, List.mem_cons, List.not_mem_nil, or_false] at hb
      rcases hb with rfl | rfl | rfl | rfl | rfl <;> norm_num [level_matches]),
   C10_no_band_falls_to_diamond (201/2) (by
      intro b hb
      simp only [levels, List.mem_cons, List.not_mem_nil, or_false] at hb
      rcases hb with rfl | rfl | rfl | rfl | rfl <;> norm_num [level_matches])⟩

/-- C6: `get_current_level` is total over non-negative integer scores
and the level bands are contiguous with no gaps or overlaps: every
non-negative integer score is contained in exactly one band of the
table, and `get_current_level` returns the name of any (hence the
unique) band containing it. -/
theorem C6_level_bands_partition (n : Nat) :
    (∃! b : LevelBand, b ∈ levels ∧ level_matches b (n : Rat) = true) ∧
    (∀ b ∈ levels, level_matches b (n : Rat) = true →
      get_current_level (n : Rat) = b.name) := by
  have h0 : (0 : Rat) ≤ (n : Rat) := Nat.cast_nonneg n
  have uniq : ∀ b : LevelBand, b ∈ levels → level_matches b (n : Rat) = true →
      ((n ≤ 100 → b = ⟨"Bronze", 0, some 100, "#CD7F32"⟩) ∧
       (101 ≤ n → n ≤ 250 → b = ⟨"Silver", 101, some 250, "#C0C0C0"⟩) ∧
       (251 ≤ n → n ≤ 500 → b = ⟨"Gold", 251, some 500, "#FFD700"⟩) ∧
       (501 ≤ n → n ≤ 1000 → b = ⟨"Platinum", 501, some 1000, "#E5E4E2"⟩) ∧
       (1001 ≤ n → b = ⟨"Diamond", 1001, none, "#B9F2FF"⟩)) := by
    intro b hb hm
    simp only [levels, List.mem_cons, List.not_mem_nil, or_false] at hb
    rcases hb with rfl | rfl | rfl | rfl | rfl
    · rw [level_matches_some_iff] at hm
      have hn : n ≤ 100 := by exact_mod_cast hm.2
      exact ⟨fun _ => rfl, fun h _ => by omega, fun h _ => by omega,
        fun h _ => by omega, fun h => by omega⟩
    · rw [level_matches_some_iff] at hm
      have ha : 101 ≤ n := by exact_mod_cast hm.1
      have hc : n ≤ 250 := by exact_mod_cast hm.2
      exact ⟨fun h => by omega, fun _ _ => rfl, fun h _ => by omega,
        fun h _ => by omega, fun h => by omega⟩
    · rw [level_matches_some_iff] at hm
      have ha : 251 ≤ n := by exact_mod_cast hm.1
      have hc : n ≤ 500 := by exact_mod_cast hm.2
      exact ⟨fun h => by omega, fun _ h => by omega, fun _ _ => rfl,
        fun h _ => by omega, fun h => by omega⟩
    · rw [level_matches_some_iff] at hm
      have ha : 501 ≤ n := by exact_mod_cast hm.1
      have hc : n ≤ 1000 := by exact_mod_cast hm.2
      exact ⟨fun h => by omega, fun _ h => by omega, fun _ h => by omega,
        fun _ _ => rfl, fun h => by omega⟩
    · rw [level_matches_none_iff] at hm
      have ha : 1001 ≤ n := by exact_mod_cast hm
      exact ⟨fun h => by omega, fun _ h => by omega, fun _ h => by omega,
        fun _ h => by omega, fun _ => rfl⟩
  by_cases h1 : n ≤ 100
  · have hm : level_matches ⟨"Bronze", 0, some 100, "#CD7F32"⟩ (n : Rat) = true :=
      (level_matches_some_iff _ _ _ _ _).mpr ⟨h0, by exact_mod_cast h1⟩
    have hfind : List.find? (fun b => level_matches b (n : Rat)) levels =
        some ⟨"Bronze", 0, some 100, "#CD7F32"⟩ := by
      simp only [levels]
      exact List.find?_cons_of_pos _ hm
    refine ⟨⟨⟨"Bronze", 0, some 100, "#CD7F32"⟩, ⟨by simp [levels], hm⟩, ?_⟩, ?_⟩
    · rintro b ⟨hb, hbm⟩
      exact (uniq b hb hbm).1 h1
    · intro b hb hbm
      rw [(uniq b hb hbm).1 h1]
      simp [get_current_level, hfind]
  · by_cases h2 : n ≤ 250
    · have hm : level_matches ⟨"Silver", 101, some 250, "#C0C0C0"⟩ (n : Rat) = true :=
        (level_matches_some_iff _ _ _ _ _).mpr
          ⟨by exact_mod_cast by omega, by exact_mod_cast h2⟩
      have hnb : ¬ (level_matches (⟨"Bronze", 0, some 100, "#CD7F32"⟩ : LevelBand) (n : Rat) = true) := by
        rw [level_matches_some_iff]
        rintro ⟨-, hc⟩
        have : n ≤ 100 := by exact_mod_cast hc
        omega
      have hfind : List.find? (fun b => level_matches b (n : Rat)) levels =
          some ⟨"Silver", 101, some 250, "#C0C0C0"⟩ := by
        have e1 : List.find? (fun b => level_matches b (n : Rat)) levels =
            List.find? (fun b => level_matches b (n : Rat))
              [⟨"Silver", 101, some 250, "#C0C0C0"⟩,
              ⟨"Gold", 251, some 500, "#FFD700"⟩,
              ⟨"Platinum", 501, some 1000, "#E5E4E2"⟩,
              ⟨"Diamond", 1001, none, "#B9F2FF"⟩] :=
          List.find?_cons_of_neg _ hnb
        rw [e1]
        exact List.find?_cons_of_pos _ hm
      refine ⟨⟨⟨"Silver", 101, some 250, "#C0C0C0"⟩, ⟨by simp [levels], hm⟩, ?_⟩, ?_⟩
      · rintro b ⟨hb, hbm⟩
        exact (uniq b hb hbm).2.1 (by omega) h2
      · intro b hb hbm
        rw [(uniq b hb hbm).2.1 (by omega) h2]
        simp [get_current_level, hfind]
    · by_cases h3 : n ≤ 500
      · have hm : level_matches ⟨"Gold", 251, some 500, "#FFD700"⟩ (n : Rat) = true :=
          (level_matches_some_iff _ _ _ _ _).mpr
            ⟨by exact_mod_cast by omega, by exact_mod_cast h3⟩
        have hnb : ¬ (level_matches (⟨"Bronze", 0, some 100, "#CD7F32"⟩ : LevelBand) (n : Rat) = true) := by
          rw [level_matches_some_iff]
          rintro ⟨-, hc⟩
          have : n ≤ 100 := by exact_mod_cast hc
          omega
        have hns : ¬ (level_matches (⟨"Silver", 101, some 250, "#C0C0C0"⟩ : LevelBand) (n : Rat) = true) := by
          rw [level_matches_some_iff]
          rintro ⟨-, hc⟩
          have : n ≤ 250 := by exact_mod_cast hc
          omega
        have hfind : List.find? (fun b => level_matches b (n : Rat)) levels =
            some ⟨"Gold", 251, some 500, "#FFD700"⟩ := by
          have e1 : List.find? (fun b => level_matches b (n : Rat)) levels =
              List.find? (fun b => level_matches b (n : Rat))
                [⟨"Silver", 101, some 250, "#C0C0C0"⟩,
                ⟨"Gold", 251, some 500, "#FFD700"⟩,
                ⟨"Platinum", 501, some 1000, "#E5E4E2"⟩,
                ⟨"Diamond", 1001, none, "#B9F2FF"⟩] :=
            List.find?_cons_of_neg _ hnb
          have e2 : List.find? (fun b => level_matches b (n : Rat))
                [⟨"Silver", 101, some 250, "#C0C0C0"⟩,
                ⟨"Gold", 251, some 500, "#FFD700"⟩,
                ⟨"Platinum", 501, some 1000, "#E5E4E2"⟩,
                ⟨"Diamond", 1001, none, "#B9F2FF"⟩] =
              List.find? (fun b => level_matches b (n : Rat))
                [⟨"Gold", 251, some 500, "#FFD700"⟩,
                ⟨"Platinum", 501, some 1000, "#E5E4E2"⟩,
                ⟨"Diamond", 1001, none, "#B9F2FF"⟩] :=
            List.find?_cons_of_neg _ hns
          rw [e1, e2]
          exact List.find?_cons_of_pos _ hm
        refine ⟨⟨⟨"Gold", 251, some 500, "#FFD700"⟩, ⟨by simp [levels], hm⟩, ?_⟩, ?_⟩
        · rintro b ⟨hb, hbm⟩
          exact (uniq b hb hbm).2.2.1 (by omega) h3
        · intro b hb hbm
          rw [(uniq b hb hbm).2.2.1 (by omega) h3]
          simp [get_current_level, hfind]
      · by_cases h4 : n ≤ 1000
        · have hm : level_matches ⟨"Platinum", 501, some 1000, "#E5E4E2"⟩ (n : Rat) = true :=
            (level_matches_some_iff _ _ _ _ _).mpr
              ⟨by exact_mod_cast by omega, by exact_mod_cast h4⟩
          have hnb : ¬ (level_matches (⟨"Bronze", 0, some 100, "#CD7F32"⟩ : LevelBand) (n : Rat) = true) := by
            rw [level_matches_some_iff]
            rintro ⟨-, hc⟩
            have : n ≤ 100 := by exact_mod_cast hc
            omega
          have hns : ¬ (level_matches (⟨"Silver", 101, some 250, "#C0C0C0"⟩ : LevelBand) (n : Rat) = true) := by
            rw [level_matches_some_iff]
            rintro ⟨-, hc⟩
            have : n ≤ 250 := by exact_mod_cast hc
            omega
          have hng : ¬ (level_matches (⟨"Gold", 251, some 500, "#FFD700"⟩ : LevelBand) (n : Rat) = true) := by
            rw [level_matches_some_iff]
            rintro ⟨-, hc⟩
            have : n ≤ 500 := by exact_mod_cast hc
            omega
          have hfind : List.find? (fun b => level_matches b (n : Rat)) levels =
              some ⟨"Platinum", 501, some 1000, "#E5E4E2"⟩ := by
            have e1 : List.find? (fun b => level_matches b (n : Rat)) levels =
                List.find? (fun b => level_matches b (n : Rat))
                  [⟨"Silver", 101, some 250, "#C0C0C0"⟩,
                  ⟨"Gold", 251, some 500, "#FFD700"⟩,
                  ⟨"Platinum", 501, some 1000, "#E5E4E2"⟩,
                  ⟨"Diamond", 1001, none, "#B9F2FF"⟩] :=
              List.find?_cons_of_neg _ hnb
            have e2 : List.find? (fun b => level_matches b (n : Rat))
                  [⟨"Silver", 101, some 250, "#C0C0C0"⟩,
                  ⟨"Gold", 251, some 500, "#FFD700"⟩,
                  ⟨"Platinum", 501, some 1000, "#E5E4E2"⟩,
                  ⟨"Diamond", 1001, none, "#B9F2FF"⟩] =
                List.find? (fun b => level_matches b (n : Rat))
                  [⟨"Gold", 251, some 500, "#FFD700"⟩,
                  ⟨"Platinum", 501, some 1000, "#E5E4E2"⟩,
                  ⟨"Diamond", 1001, none, "#B9F2FF"⟩] :=
              List.find?_cons_of_neg _ hns
            have e3 : List.find? (fun b => level_matches b (n : Rat))
                  [⟨"Gold", 251, some 500, "#FFD700"⟩,
                  ⟨"Platinum", 501, some 1000, "#E5E4E2"⟩,
                  ⟨"Diamond", 1001, none, "#B9F2FF"⟩] =
                List.find? (fun b => level_matches b (n : Rat))
                  [⟨"Platinum", 501, some 1000, "#E5E4E2"⟩,
                  ⟨"Diamond", 1001, none, "#B9F2FF"⟩] :=
              List.find?_cons_of_neg _ hng
            rw [e1, e2, e3]
            exact List.find?_cons_of_pos _ hm
          refine ⟨⟨⟨"Platinum", 501, some 1000, "#E5E4E2"⟩, ⟨by simp [levels], hm⟩, ?_⟩, ?_⟩
          · rintro b ⟨hb, hbm⟩
            exact (uniq b hb hbm).2.2.2.1 (by omega) h4
          · intro b hb hbm
            rw [(uniq b hb hbm).2.2.2.1 (by omega) h4]
            simp [get_current_level, hfind]
        · have hm : level_matches ⟨"Diamond", 1001, none, "#B9F2FF"⟩ (n : Rat) = true :=
            (level_matches_none_iff _ _ _ _).mpr (by exact_mod_cast by omega)
          have hnb : ¬ (level_matches (⟨"Bronze", 0, some 100, "#CD7F32"⟩ : LevelBand) (n : Rat) = true) := by
            rw [level_matches_some_iff]
            rintro ⟨-, hc⟩
            have : n ≤ 100 := by exact_mod_cast hc
            omega
          have hns : ¬ (level_matches (⟨"Silver", 101, some 250, "#C0C0C0"⟩ : LevelBand) (n : Rat) = true) := by
            rw [level_matches_some_iff]
            rintro ⟨-, hc⟩
            have : n ≤ 250 := by exact_mod_cast hc
            omega
          have hng : ¬ (level_matches (⟨"Gold", 251, some 500, "#FFD700"⟩ : LevelBand) (n : Rat) = true) := by
            rw [level_matches_some_iff]
            rintro ⟨-, hc⟩
            have : n ≤ 500 := by exact_mod_cast hc
            omega
          have hnp : ¬ (level_matches (⟨"Platinum", 501, some 1000, "#E5E4E2"⟩ : LevelBand) (n : Rat) = true) := by
            rw [level_matches_some_iff]
            rintro ⟨-, hc⟩
            have : n ≤ 1000 := by exact_mod_cast hc
            omega
          have hfind : List.find? (fun b => level_matches b (n : Rat)) levels =
              some ⟨"Diamond", 1001, none, "#B9F2FF"⟩ := by
            have e1 : List.find? (fun b => level_matches b (n : Rat)) levels =
                List.find? (fun b => level_matches b (n : Rat))
                  [⟨"Silver", 101, some 250, "#C0C0C0"⟩,
                  ⟨"Gold", 251, some 500, "#FFD700"⟩,
                  ⟨"Platinum", 501, some 1000, "#E5E4E2"⟩,
                  ⟨"Diamond", 1001, none, "#B9F2FF"⟩] :=
              List.find?_cons_of_neg _ hnb
            have e2 : List.find? (fun b => level_matches b (n : Rat))
                  [⟨"Silver", 101, some 250, "#C0C0C0"⟩,
                  ⟨"Gold", 251, some 500, "#FFD700"⟩,
                  ⟨"Platinum", 501, some 1000, "#E5E4E2"⟩,
                  ⟨"Diamond", 1001, none, "#B9F2FF"⟩] =
                List.find? (fun b => level_matches b (n : Rat))
                  [⟨"Gold", 251, some 500, "#FFD700"⟩,
                  ⟨"Platinum", 501, some 1000, "#E5E4E2"⟩,
                  ⟨"Diamond", 1001, none, "#B9F2FF"⟩] :=
              List.find?_cons_of_neg _ hns
            have e3 : List.find? (fun b => level_matches b (n : Rat))
                  [⟨"Gold", 251, some 500, "#FFD700"⟩,
                  ⟨"Platinum", 501, some 1000, "#E5E4E2"⟩,
                  ⟨"Diamond", 1001, none, "#B9F2FF"⟩] =
                List.find? (fun b => level_matches b (n : Rat))
                  [⟨"Platinum", 501, some 1000, "#E5E4E2"⟩,
                  ⟨"Diamond", 1001, none, "#B9F2FF"⟩] :=
              List.find?_cons_of_neg _ hng
            have e4 : List.find? (fun b => level_matches b (n : Rat))
                  [⟨"Platinum", 501, some 1000, "#E5E4E2"⟩,
                  ⟨"Diamond", 1001, none, "#B9F2FF"⟩] =
                List.find? (fun b => level_matches b (n : Rat)) [⟨"Diamond", 1001, none, "#B9F2FF"⟩] :=
              List.find?_cons_of_neg _ hnp
            rw [e1, e2, e3, e4]
            exact List.find?_cons_of_pos _ hm
          refine ⟨⟨⟨"Diamond", 1001, none, "#B9F2FF"⟩, ⟨by simp [levels], hm⟩, ?_⟩, ?_⟩
          · rintro b ⟨hb, hbm⟩
            exact (uniq b hb hbm).2.2.2.2 (by omega)
          · intro b hb hbm
            rw [(uniq b hb hbm).2.2.2.2 (by omega)]
            simp [get_current_level, hfind]

/-- C6 witness: at score 150 the Silver band matches and the lookup
returns its name. -/
theorem C6_level_bands_partition_witness :
    get_current_level ((150 : Nat) : Rat) = "Silver" :=
  (C6_level_bands_partition 150).2 ⟨"Silver", 101, some 250, "#C0C0C0"⟩
    (by simp [levels]) (by norm_num [level_matches])

/-- C7: the daily footprint equals the linear weighted sum
4·emails + 150·video + 36·streaming + 10·cloud + 20·device rounded to
two decimal digits, and the scenario emails=20, video=2 h, streaming=3 h,
cloud=5 GB, device=8 h gives exactly 698 grams. -/
theorem C7_footprint_linear :
    (∀ emails video streaming cloud device : Rat,
      calculate_daily_footprint emails video streaming cloud device =
        round2 (4 * emails + 150 * video + 36 * streaming +
          10 * cloud + 20 * device)) ∧
    calculate_daily_footprint 20 2 3 5 8 = 698 := by
  have hlin : ∀ emails video streaming cloud device : Rat,
      calculate_daily_footprint emails video streaming cloud device =
        round2 (4 * emails + 150 * video + 36 * streaming +
          10 * cloud + 20 * device) := by
    intro e v s c d
    show round2 (e * 4 + v * 150 + s * 36 + c * 10 + d * 20) = _
    congr 1
    ring
  refine ⟨hlin, ?_⟩
  rw [hlin]
  have h1 : (4 * (20 : Rat) + 150 * 2 + 36 * 3 + 10 * 5 + 20 * 8) = 698 := by norm_num
  rw [h1]
  have h2 : ((698 : Rat) * 100) = ((69800 : Int) : Rat) := by norm_num
  have h3 : ⌊((69800 : Int) : Rat)⌋ = 69800 := Int.floor_intCast _
  norm_num [round2, roundHalfEven, h2, h3]

end EcoMind
